import Mathlib

/-!
Verification of the SpaceMissionDES discrete-event simulation core.

The engine code lives in `drivers/simulator.py` and `objects/activities.py`.
Two collaborating modules, `objects/events.py` (Event, ScheduledEvent,
CompletionEvent, FailureEvent, Failure, Completor, Predicate,
FutureEventList) and `objects/vehicles.py` (Vehicle), are referenced by the
engine but their sources are not available; where a definition below stands
in for one of them it is explicitly marked `Modelled from the spec:`.

Numbers (simulated times, durations, probabilities, random draws) are
Python floats in the source; they are embedded as rationals `ℚ`, since no
claim concerns floating-point rounding.
-/

/-- Python exception classes that the engine can raise.  `keyError` is what a
Python `dict` subscript raises on a missing key (`ConOps.after`,
`ConOps.first`); `attributeError` is what attribute access on an object
lacking the attribute raises (`PredicatedActivity` has no `duration` field).
`configurationError` does not exist anywhere in the code; it is Modelled from
the spec (§4.2 speaks of a `ConfigurationError`) purely so that claim C4 can
be stated and compared against what the code actually raises. -/
inductive PyErr
  | keyError (key : String)
  | attributeError (msg : String)
  | configurationError (msg : String)
deriving DecidableEq

/-- True exactly for the spec's `ConfigurationError`. -/
def PyErr.isConfigurationError : PyErr → Bool
  | .configurationError _ => true
  | _ => false

/-- Decidable equality on `Except`, for evaluating engine results. -/
instance {ε α : Type} [DecidableEq ε] [DecidableEq α] : DecidableEq (Except ε α) := fun a b =>
  match a, b with
  | .ok x, .ok y =>
      if h : x = y then .isTrue (by rw [h]) else .isFalse (by intro hc; cases hc; exact h rfl)
  | .error x, .error y =>
      if h : x = y then .isTrue (by rw [h]) else .isFalse (by intro hc; cases hc; exact h rfl)
  | .ok _, .error _ => .isFalse (by intro hc; cases hc)
  | .error _, .ok _ => .isFalse (by intro hc; cases hc)

/-- Modelled from the spec: `objects/events.py` is absent from src.  The
engine dispatches on the dynamic class of an end event with
`isinstance(current_end, Failure)` and `isinstance(current_end, Completor)`;
a plain `Event` is neither.  This tag records which of the three classes an
event instance belongs to. -/
inductive EventKind
  | plain
  | failureTerm
  | completorTerm
deriving DecidableEq

/-- Modelled from the spec: base `Event` of `objects/events.py` (absent from
src): an identity (`name`) plus its dynamic class (`EventKind`).  The
wait/signal gate carried by Python events is the cooperative-scheduling
handshake; in this sequential embedding firing an event is modelled by the
driver running the matching task directly, so the gate needs no field. -/
structure Event where
  name : String
  kind : EventKind
deriving DecidableEq

/-- Modelled from the spec: the default `failure` end event `Failure()` of an
`Activity` (`objects/activities.py` line 15), an instance of the Failure
terminal class from the absent `objects/events.py`. -/
def FailureDefault : Event := { name := "Failure", kind := .failureTerm }

/-- Modelled from the spec: a `Predicate` is a capability object exposing
`check(pendingEvent, simulatorState) -> bool`.  Embedded as an opaque
identifier; a run is parameterised by the function giving each identifier's
`check` behaviour (`CheckFn` below). -/
abbrev PredicateId := Nat

/-- Modelled from the spec: `ScheduledEvent` of the absent
`objects/events.py`.  Constructed in the engine either with a concrete
`time` (`ScheduledEvent(name, event, time)`) or, for deferred scheduling,
with `predicate = ...` and no time, so both fields are optional.  `uid` is
ghost bookkeeping standing for Python object identity: the driver's
`event.set()` wakes exactly the activity task holding that same event
object, and `list.remove` compares by identity. -/
structure ScheduledEvent where
  name : String
  event : Event
  time : Option ℚ := none
  predicate : Option PredicateId := none
  uid : Nat := 0
deriving DecidableEq

/-- The one event placed on `queue_future` by `activity_handler`: the driver
classifies it with `isinstance(new_event, FailureEvent)` /
`isinstance(new_event, CompletionEvent)` / `new_event.predicate != None`. -/
inductive ResultEvent
  | failureEvent (name : String) (event : Event) (time : ℚ)
  | completionEvent (name : String) (event : Event) (time : ℚ)
  | scheduledEvent (se : ScheduledEvent)
deriving DecidableEq

/-- `Activity` from `objects/activities.py` (lines 8-23). -/
structure Activity where
  name : String
  start : Event
  end_ : Event                               -- `end` is reserved in Lean
  duration : ℚ
  p_fail : ℚ := 0
  failure : Event := FailureDefault
  resource_change : List (String × ℚ) := []
  agg_type : String := ""
  agg_params : List (String × String) := []  -- opaque payload, engine never reads it
deriving DecidableEq

/-- `PredicatedActivity` from `objects/activities.py` (lines 26-37): same
shape but gated by a predicate and without a `duration` field. -/
structure PredicatedActivity where
  name : String
  start : Event
  end_ : Event
  predicate : PredicateId
  p_fail : ℚ := 0
  failure : Event := FailureDefault
  resource_change : List (String × ℚ) := []
  agg_type : String := ""
  agg_params : List String := []
deriving DecidableEq

/-- A ConOps entry is dynamically either an `Activity` or a
`PredicatedActivity`; `activity_handler` dispatches with
`isinstance(current_activity, PredicatedActivity)`. -/
inductive ActivityLike
  | plain (a : Activity)
  | pred (a : PredicatedActivity)
deriving DecidableEq

def ActivityLike.name : ActivityLike → String
  | .plain a => a.name
  | .pred a => a.name

def ActivityLike.start : ActivityLike → Event
  | .plain a => a.start
  | .pred a => a.start

def ActivityLike.end_ : ActivityLike → Event
  | .plain a => a.end_
  | .pred a => a.end_

def ActivityLike.p_fail : ActivityLike → ℚ
  | .plain a => a.p_fail
  | .pred a => a.p_fail

def ActivityLike.failure : ActivityLike → Event
  | .plain a => a.failure
  | .pred a => a.failure

def ActivityLike.resource_change : ActivityLike → List (String × ℚ)
  | .plain a => a.resource_change
  | .pred a => a.resource_change

/-- `current_activity.duration`: a `PredicatedActivity` has no `duration`
attribute, so the access raises `AttributeError` in Python. -/
def ActivityLike.duration : ActivityLike → Except PyErr ℚ
  | .plain a => .ok a.duration
  | .pred _ => .error (.attributeError "PredicatedActivity.duration")

/-- Python `dict` assignment `d[k] = v`: overwrite in place if the key
exists, else append (insertion order preserved). -/
def dictSet {α : Type} (l : List (String × α)) (k : String) (v : α) : List (String × α) :=
  match l with
  | [] => [(k, v)]
  | (k0, v0) :: rest => if k0 = k then (k, v) :: rest else (k0, v0) :: dictSet rest k v

/-- Python `dict.update(adds)`. -/
def dictUpdate {α : Type} (l : List (String × α)) (adds : List (String × α)) : List (String × α) :=
  adds.foldl (fun acc p => dictSet acc p.1 p.2) l

/-- `ConOps` from `objects/activities.py` (lines 42-56): a dict from event
name to the activity that begins at that event, embedded as an association
list with unique keys (Python dict semantics: first matching key wins,
insertion order preserved). -/
structure ConOps where
  sequence : List (String × ActivityLike)
deriving DecidableEq

/-- `ConOps.first`: `return self.sequence["INIT"]`; a missing key raises
`KeyError`. -/
def ConOps.first (c : ConOps) : Except PyErr ActivityLike :=
  match c.sequence.lookup "INIT" with
  | some a => .ok a
  | none => .error (.keyError "INIT")

/-- `ConOps.after`: `return self.sequence[current_event.name]`.  The source
takes the event object and reads its `.name`; the embedding is passed the
name directly (call sites pass `start.name` / `current_end.name`). -/
def ConOps.after (c : ConOps) (name : String) : Except PyErr ActivityLike :=
  match c.sequence.lookup name with
  | some a => .ok a
  | none => .error (.keyError name)

/-- `ConOps.update`: `self.sequence.update(additions); return self`.  The
Python method mutates the receiver's dict in place and returns `self`; in
the state-passing embedding the returned value is the mutated object. -/
def ConOps.update (c : ConOps) (additions : List (String × ActivityLike)) : ConOps :=
  { c with sequence := dictUpdate c.sequence additions }

/-- Modelled from the spec: `Vehicle` of the absent `objects/vehicles.py`:
identity, its ConOps, current activity reference, resource counter
(`propload`, the one counter the engine touches), completion flag and
time-stamped execution trace.  `handled_failures` counts invocations of the
external failure-handling hook `handle_failure`. -/
structure Vehicle where
  name : String
  conops : ConOps
  activity : Option ActivityLike := none
  propload : ℚ := 0
  completed_conops : Bool := false
  trace : List (ℚ × String) := []
  handled_failures : Nat := 0
deriving DecidableEq

/-- Modelled from the spec: `vehicle.handle_failure()` is an external
collaborator hook; the embedding records only that it was invoked. -/
def Vehicle.handle_failure (v : Vehicle) : Vehicle :=
  { v with handled_failures := v.handled_failures + 1 }

/-- Modelled from the spec: `vehicle.update_trace(sim.clock)` appends a
time-stamped entry for the current activity to the execution trace. -/
def Vehicle.update_trace (v : Vehicle) (t : ℚ) : Vehicle :=
  { v with trace := v.trace ++ [(t, match v.activity with | some a => a.name | none => "")] }

/-- Modelled from the spec: the `FutureEventList` of the absent
`objects/events.py`.  §4.1: `push(event)` inserts; `popMin()` removes and
returns the event with smallest `(time, insertion-order)` key.  The
embedding tags every pushed event with an insertion counter and pops the
lexicographic minimum, which realises the spec's stable tie-break. -/
structure FutureEventList where
  events : List (ScheduledEvent × Nat) := []
  counter : Nat := 0
deriving DecidableEq

/-- The time key an event is ordered by.  Every event in the list carries a
concrete time in any reachable state (the driver only pushes timed events);
the default 0 is never exercised there. -/
def timeKey (e : ScheduledEvent) : ℚ := e.time.getD 0

/-- Strict lexicographic order on `(time, insertion counter)`. -/
def felLt (a b : ScheduledEvent × Nat) : Bool :=
  decide (timeKey a.1 < timeKey b.1) ||
    (decide (timeKey a.1 = timeKey b.1) && decide (a.2 < b.2))

/-- `Simulator.schedule`: `heappush(self.future.events, event)`. -/
def FutureEventList.push (f : FutureEventList) (e : ScheduledEvent) : FutureEventList :=
  { events := f.events ++ [(e, f.counter)], counter := f.counter + 1 }

/-- Select the minimum entry by `(time, insertion counter)` and return it
with the remaining entries.  On a tie (impossible for distinct counters) the
earlier element wins. -/
def selMin : List (ScheduledEvent × Nat) → Option ((ScheduledEvent × Nat) × List (ScheduledEvent × Nat))
  | [] => none
  | x :: xs =>
    match selMin xs with
    | none => some (x, [])
    | some (m, rest) => if felLt m x then some (m, x :: rest) else some (x, xs)

/-- `popMin` of the Future Event List. -/
def FutureEventList.popMin (f : FutureEventList) : Option (ScheduledEvent × FutureEventList) :=
  match selMin f.events with
  | none => none
  | some ((e, _), rest) => some (e, { f with events := rest })

/-- Drain a list of entries by repeated minimum selection (the pop order of
the Future Event List). -/
def drainAux : Nat → List (ScheduledEvent × Nat) → List (ScheduledEvent × Nat)
  | 0, _ => []
  | n + 1, l =>
    match selMin l with
    | none => []
    | some (m, rest) => m :: drainAux n rest

def drain (l : List (ScheduledEvent × Nat)) : List (ScheduledEvent × Nat) :=
  drainAux l.length l

/-- Push a whole sequence of events in order. -/
def pushList (es : List ScheduledEvent) (f : FutureEventList) : FutureEventList :=
  es.foldl FutureEventList.push f

/-- One per-vehicle activity coroutine created by `asyncio.create_task`:
which vehicle it belongs to, the identity of the start event it awaits, and
its scheduling status.  `done` stands for a coroutine that ran to
completion; `task.cancel()` on a finished task is a no-op. -/
inductive TaskStatus
  | waiting
  | done
  | cancelled
deriving DecidableEq

structure SimTask where
  vehName : String
  startUid : Nat
  status : TaskStatus
deriving DecidableEq

/-- The `Simulator` dataclass state (`drivers/simulator.py` lines 20-30).
`queue_future` (the single-slot inbound result channel) is not a field here:
the driver fires one event and blocks for exactly one result, so the
rendezvous is embedded by running the woken handler directly inside the
driver step.  `rngIdx` indexes the pluggable uniform random source (one draw
per handler wake) and `nextUid` is the ghost object-identity counter. -/
structure Simulator where
  entities : List (String × Vehicle) := []
  failures : List (ℚ × String × String) := []
  future : FutureEventList := {}
  tasks : List SimTask := []
  predicates : List ScheduledEvent := []
  clock : ℚ := 0
  success : Bool := false
  rngIdx : Nat := 0
  nextUid : Nat := 0
deriving DecidableEq

def initSim : Simulator := {}

/-- The behaviour of every `Predicate` capability: `check(event, sim)`. -/
abbrev CheckFn := PredicateId → ScheduledEvent → Simulator → Bool

/-- `p.predicate.check(p, self)`.  Pending events always carry a predicate
(the driver queues only events with `predicate != None`); a `none` here
would be an `AttributeError` in Python and is mapped to `false`, a case no
reachable state exercises. -/
def pcheck (cf : CheckFn) (p : ScheduledEvent) (st : Simulator) : Bool :=
  match p.predicate with
  | some pid => cf pid p st
  | none => false

/-- The post-step predicate re-scan (`process_events` lines 74-80):

    for p in self.predicates:
        if p.predicate.check(p, self):
            p.time = self.clock
            self.schedule(p)
            self.predicates.remove(p)

Python's `for` iterates the live list by an internal index: `p` is read at
index `i`, the index advances, and the body runs; `remove(p)` (first
occurrence, object identity) shifts every later entry left by one, so the
entry that followed a removed one is read past.  The embedding reproduces
exactly that: both branches advance `i`, and the removing branch also
shrinks the list.  The structural `fuel` argument only bounds the number of
loop iterations; started at the initial list length it never runs out,
because every iteration advances `i` while the length never grows, so the
loop exits (`i ≥ length`) within `length` iterations. -/
def scanAux (cf : CheckFn) : Nat → Simulator → Nat → Simulator
  | 0, st, _ => st
  | fuel + 1, st, i =>
    if h : i < st.predicates.length then
      if pcheck cf st.predicates[i] st then
        scanAux cf fuel
          { st with
            future := st.future.push { st.predicates[i] with time := some st.clock },
            predicates := st.predicates.erase st.predicates[i] } (i + 1)
      else
        scanAux cf fuel st (i + 1)
    else st

def checkPredicates (cf : CheckFn) (st : Simulator) : Simulator :=
  scanAux cf st.predicates.length st 0

/-- `event.set()` wakes the single coroutine suspended on that event
object: the still-waiting task whose start event has this identity. -/
def findWaiting (tasks : List SimTask) (uid : Nat) : Option SimTask :=
  tasks.find? (fun t => t.status == .waiting && t.startUid == uid)

/-- The coroutine woken by `uid` runs to completion in this step. -/
def markDone (tasks : List SimTask) (uid : Nat) : List SimTask :=
  tasks.map (fun t =>
    if t.startUid == uid && t.status == .waiting then { t with status := .done } else t)

/-- `Simulator.cancel_tasks` (lines 124-128): `task.cancel()` on every task;
cancelling a finished coroutine is a no-op. -/
def cancel_tasks (tasks : List SimTask) : List SimTask :=
  tasks.map (fun t => if t.status == .waiting then { t with status := .cancelled } else t)

/-- The task spawned by `activity_handler` for the next activity. -/
def spawnTasks (vehName : String) : Option (String × ScheduledEvent) → List SimTask
  | none => []
  | some (_, se) => [{ vehName := vehName, startUid := se.uid, status := .waiting }]

/-- What one wake of `activity_handler` hands back to the driver: the
mutated vehicle, the rows appended to `sim.failures` via
`sim.log_failure`, the one event put on `queue_future`, the
`asyncio.create_task` spawn for the next activity (if any), and the ghost
identity counter after creating any new event object. -/
structure HandlerOut where
  vehicle : Vehicle
  logs : List (ℚ × String × String)
  nextEvent : ResultEvent
  spawn : Option (String × ScheduledEvent)
  nextUid : Nat
deriving DecidableEq

/-- `activity_handler` (`drivers/simulator.py` lines 131-220), the body that
runs between `await start.wait()` and `queue_future.put_nowait(next_event)`.
`clock` is `sim.clock` at the wake, `u` the value of `random.random()`,
`uid` the ghost identity counter for any event object it constructs. -/
def activity_handler (start : ScheduledEvent) (clock : ℚ) (vehicle : Vehicle)
    (u : ℚ) (uid : Nat) : Except PyErr HandlerOut := do
  -- current_activity = vehicle.conops.after(start)
  let current_activity ← vehicle.conops.after start.name
  -- trial = random.random(); if trial > (1 - p_fail_activity): ...
  let failed : Bool := decide (u > 1 - current_activity.p_fail)
  -- sim.log_failure(sim.clock, vehicle.name, current_activity.name)
  let logs : List (ℚ × String × String) :=
    if failed then [(clock, vehicle.name, current_activity.name)] else []
  -- vehicle.handle_failure()
  let veh1 : Vehicle := if failed then vehicle.handle_failure else vehicle
  -- current_end = current_activity.failure / current_activity.end
  let current_end : Event := if failed then current_activity.failure else current_activity.end_
  -- vehicle.activity = current_activity; vehicle.propload -= 1
  let veh2 : Vehicle := { veh1 with activity := some current_activity, propload := veh1.propload - 1 }
  match current_end.kind with
  | .failureTerm =>
      -- next_event = FailureEvent(current_activity.failure.name, current_activity.failure, sim.clock)
      .ok { vehicle := veh2.update_trace clock, logs := logs,
            nextEvent := .failureEvent current_activity.failure.name current_activity.failure clock,
            spawn := none, nextUid := uid }
  | .completorTerm => do
      -- next_event = CompletionEvent(end.name, end, sim.clock + current_activity.duration)
      let d ← current_activity.duration
      let veh3 : Vehicle := { veh2 with completed_conops := true }
      .ok { vehicle := veh3.update_trace clock, logs := logs,
            nextEvent := .completionEvent current_activity.end_.name current_activity.end_ (clock + d),
            spawn := none, nextUid := uid }
  | .plain => do
      -- next_activity = vehicle.conops.after(current_end)
      let next_activity ← vehicle.conops.after current_end.name
      match current_activity with
      | .pred pa =>
          -- predicate-gated: create the event, but do not give it a time
          let next_event : ScheduledEvent :=
            { name := next_activity.start.name, event := next_activity.start,
              time := none, predicate := some pa.predicate, uid := uid }
          .ok { vehicle := veh2.update_trace clock, logs := logs,
                nextEvent := .scheduledEvent next_event,
                spawn := some (next_activity.name, next_event), nextUid := uid + 1 }
      | .plain a =>
          let next_event : ScheduledEvent :=
            { name := next_activity.start.name, event := next_activity.start,
              time := some (clock + a.duration), predicate := none, uid := uid }
          .ok { vehicle := veh2.update_trace clock, logs := logs,
                nextEvent := .scheduledEvent next_event,
                spawn := some (next_activity.name, next_event), nextUid := uid + 1 }

inductive RunErr
  | outOfFuel
  | stalled
  | py (e : PyErr)
deriving DecidableEq

/-- The result of one iteration of the driver loop: the loop returned
(`stop`, on `FailureEvent` or on an exhausted Future Event List), continues
(`next`), or a Python exception propagated (`err`). -/
inductive StepResult
  | stop (s : Simulator)
  | next (s : Simulator)
  | err (e : RunErr)
deriving DecidableEq

/-- Lines 58-80 of `process_events`: classify the one result event taken
from `queue_future` (after the simulator state `st2` has absorbed the
handler's mutations), then re-scan the pending predicates.  A
`FailureEvent` cancels all tasks and returns from the loop; a
`CompletionEvent` is only logged; an event carrying a predicate is queued
on the pending list; any other event is scheduled. -/
def driverClassify (cf : CheckFn) (st2 : Simulator) (out : HandlerOut) : StepResult :=
  match out.nextEvent with
  | .failureEvent _ _ _ =>
      -- self.cancel_tasks(); return
      .stop { st2 with tasks := cancel_tasks st2.tasks }
  | .completionEvent _ _ _ =>
      -- log and continue draining, then re-check predicates
      .next (checkPredicates cf st2)
  | .scheduledEvent se =>
      if se.predicate.isSome then
        -- elif new_event.predicate != None: self.predicates.append(new_event)
        .next (checkPredicates cf { st2 with predicates := st2.predicates ++ [se] })
      else
        -- else: self.schedule(new_event)
        .next (checkPredicates cf { st2 with future := st2.future.push se })

/-- One iteration of `Simulator.process_events` (lines 42-83): pop the
next-due event, advance the clock (`self.clock = event.time`), fire the
event (`event.set()` runs the unique activity task waiting on that event
object to completion), absorb that task's mutations, take its one result
from the queue and classify it (`driverClassify`).  An exhausted Future
Event List ends the `for` loop and sets `success = True`. -/
def stepSim (rng : Nat → ℚ) (cf : CheckFn) (st : Simulator) : StepResult :=
  match st.future.popMin with
  | none => .stop { st with success := true }
  | some (e, fel) =>
    match findWaiting st.tasks e.uid with
    | none => .err .stalled
    | some tk =>
      match st.entities.lookup tk.vehName with
      | none => .err .stalled
      | some veh =>
        match activity_handler e (e.time.getD 0) veh (rng st.rngIdx) st.nextUid with
        | .error pe => .err (.py pe)
        | .ok out =>
          driverClassify cf
            { st with
              future := fel,
              clock := e.time.getD 0,
              entities := dictSet st.entities tk.vehName out.vehicle,
              failures := st.failures ++ out.logs,
              tasks := markDone st.tasks e.uid ++ spawnTasks tk.vehName out.spawn,
              rngIdx := st.rngIdx + 1,
              nextUid := out.nextUid } out

/-- `Simulator.process_events` as iterated `stepSim`, with fuel making the
possibly-divergent driver loop a total function. -/
def process_events (rng : Nat → ℚ) (cf : CheckFn) : Nat → Simulator → Except RunErr Simulator
  | 0, _ => .error .outOfFuel
  | fuel + 1, st =>
    match stepSim rng cf st with
    | .stop s => .ok s
    | .next s => process_events rng cf fuel s
    | .err e => .error e

/-- `Simulator.add_vehicle` (lines 97-105): register the vehicle, take the
first activity of its ConOps, schedule the INIT event at `start_time`, and
create the activity task that waits on it (`add_activity`, lines 89-95). -/
def add_vehicle (st : Simulator) (vehicle : Vehicle) (start_time : ℚ) : Except PyErr Simulator := do
  let activity ← vehicle.conops.first
  let INIT : ScheduledEvent :=
    { name := activity.start.name, event := activity.start,
      time := some start_time, predicate := none, uid := st.nextUid }
  .ok { st with
        entities := dictSet st.entities vehicle.name vehicle,
        future := st.future.push INIT,
        tasks := st.tasks ++ [{ vehName := vehicle.name, startUid := INIT.uid, status := .waiting }],
        nextUid := st.nextUid + 1 }

/-- `Simulator.run` (lines 107-116): add every initial vehicle, then drive
`process_events` until the loop returns. -/
def runSim (rng : Nat → ℚ) (cf : CheckFn) (initial : List (ℚ × Vehicle)) (fuel : Nat) :
    Except RunErr Simulator :=
  match initial.foldlM (fun st p => add_vehicle st p.2 p.1) initSim with
  | .error pe => .error (.py pe)
  | .ok st => process_events rng cf fuel st

/-! ### Concrete fixtures used by the claim theorems and witnesses -/

def evINIT : Event := { name := "INIT", kind := .plain }
def evDone : Event := { name := "Completed", kind := .completorTerm }
def evGO : Event := { name := "GO", kind := .plain }

/-- A constantly-true predicate environment. -/
def cfTrue : CheckFn := fun _ _ _ => true
/-- A constantly-false predicate environment. -/
def cfFalse : CheckFn := fun _ _ _ => false
/-- The all-zero random source: `random.random()` can return 0.0. -/
def rngZero : Nat → ℚ := fun _ => 0
/-- A random source drawing 1/2 forever. -/
def rngHalf : Nat → ℚ := fun _ => 1 / 2

/-- First activity with certain failure (`p_fail = 1`) and default failure
terminal, used for C3 and C7. -/
def actA1 : Activity :=
  { name := "A", start := evINIT, end_ := evDone, duration := 10, p_fail := 1 }

def conopsA1 : ConOps := { sequence := [("INIT", .plain actA1)] }

def vehA1 : Vehicle := { name := "V1", conops := conopsA1, propload := 10 }

/-- All activities have `p_fail = 0` but the activity's `end` event is a
Failure-terminal instance, used for the C6 counterexample. -/
def actB : Activity :=
  { name := "B", start := evINIT, end_ := { name := "Abort", kind := .failureTerm },
    duration := 5, p_fail := 0 }

def conopsB : ConOps := { sequence := [("INIT", .plain actB)] }

def vehB : Vehicle := { name := "V2", conops := conopsB, propload := 4 }

/-- A benign one-activity ConOps (`p_fail = 0`, Completor end), used for the
C6 witness. -/
def actW : Activity :=
  { name := "W", start := evINIT, end_ := evDone, duration := 10, p_fail := 0 }

def conopsW : ConOps := { sequence := [("INIT", .plain actW)] }

def vehW : Vehicle := { name := "V3", conops := conopsW, propload := 6 }

/-- Activity with a nonempty `resource_change` mapping, used for C2. -/
def actRC : Activity :=
  { name := "Burn", start := evGO, end_ := evDone, duration := 5, p_fail := 0,
    resource_change := [("propload", 2)] }

def conopsRC : ConOps := { sequence := [("GO", .plain actRC)] }

def vehRC : Vehicle := { name := "V4", conops := conopsRC, propload := 10 }

def seGO : ScheduledEvent := { name := "GO", event := evGO, time := some 0, uid := 0 }

/-- A predicate-gated first activity followed by a plain one, used for C8. -/
def pactP : PredicatedActivity :=
  { name := "P", start := evINIT, end_ := evGO, predicate := 7 }

def actN : Activity :=
  { name := "N", start := evGO, end_ := evDone, duration := 2, p_fail := 0 }

def conopsP : ConOps := { sequence := [("INIT", .pred pactP), ("GO", .plain actN)] }

def vehP : Vehicle := { name := "V5", conops := conopsP, propload := 3 }

def seINIT : ScheduledEvent := { name := "INIT", event := evINIT, time := some 0, uid := 0 }

/-- Two pending predicate-gated events whose predicates are both true, used
for C1: the scan checks the first, removes it, and skips the second. -/
def pe1 : ScheduledEvent :=
  { name := "E1", event := { name := "E1", kind := .plain }, predicate := some 1, uid := 10 }

def pe2 : ScheduledEvent :=
  { name := "E2", event := { name := "E2", kind := .plain }, predicate := some 2, uid := 11 }

def stScan : Simulator := { predicates := [pe1, pe2], clock := 5 }

/-- A two-activity plain chain, used to exercise a driver step that leaves
an event in the Future Event List. -/
def evMID : Event := { name := "MID", kind := .plain }

def actC1 : Activity :=
  { name := "CruiseA", start := evINIT, end_ := evMID, duration := 5, p_fail := 0 }

def actC2 : Activity :=
  { name := "CruiseB", start := evMID, end_ := evDone, duration := 3, p_fail := 0 }

def conopsChain : ConOps :=
  { sequence := [("INIT", .plain actC1), ("MID", .plain actC2)] }

def vehChain : Vehicle := { name := "V6", conops := conopsChain, propload := 8 }

/-- The simulator state right after `add_vehicle vehChain 0`. -/
def stChain0 : Simulator :=
  { entities := [("V6", vehChain)],
    future := { events := [({ name := "INIT", event := evINIT, time := some 0,
                              predicate := none, uid := 0 }, 0)], counter := 1 },
    tasks := [{ vehName := "V6", startUid := 0, status := .waiting }],
    nextUid := 1 }

/-- `new_event` was a `FailureEvent`. -/
def ResultEvent.isFailure : ResultEvent → Bool
  | .failureEvent _ _ _ => true
  | _ => false

/-- The woken activity task handed the driver a `FailureEvent`. -/
def handlerFailed (r : Except PyErr HandlerOut) : Bool :=
  match r with
  | .ok o => o.nextEvent.isFailure
  | .error _ => false

/-- The driver loop returned on this step. -/
def StepResult.isStop : StepResult → Bool
  | .stop _ => true
  | _ => false

/-- The simulator state carried by a step result (`initSim` for a
propagated exception, a case the theorems never exercise). -/
def StepResult.state : StepResult → Simulator
  | .stop s => s
  | .next s => s
  | .err _ => initSim

instance : Inhabited HandlerOut :=
  ⟨{ vehicle := { name := "", conops := { sequence := [] } }, logs := [],
     nextEvent := .scheduledEvent { name := "", event := { name := "", kind := .plain } },
     spawn := none, nextUid := 0 }⟩

/-- Projection of a successful handler result, for closed witness
statements. -/
def okOf (r : Except PyErr HandlerOut) : HandlerOut := r.toOption.getD default

/-- Projection of a successful run result, for closed witness statements. -/
def runOf (r : Except RunErr Simulator) : Simulator := r.toOption.getD initSim

/-- Every activity of the ConOps has `p_fail = 0` and an `end` event that is
not a Failure-terminal instance. -/
def conopsSafe (c : ConOps) : Bool :=
  c.sequence.all (fun p => (p.2).p_fail == 0 && !((p.2).end_.kind == EventKind.failureTerm))

/-- Every entity's ConOps is `C`. -/
def EntitiesConops (C : ConOps) (st : Simulator) : Prop :=
  ∀ p ∈ st.entities, (p.2).conops = C

/-- The strict order realised by the Future Event List: earlier time first,
ties broken by insertion order (spec §3 and §4.1). -/
def felLtP (a b : ScheduledEvent × Nat) : Prop :=
  timeKey a.1 < timeKey b.1 ∨ (timeKey a.1 = timeKey b.1 ∧ a.2 < b.2)

/-- The pop key of a Future Event List entry, as a lexicographic pair. -/
def felKey (a : ScheduledEvent × Nat) : ℚ ×ₗ ℕ := toLex (timeKey a.1, a.2)

/-!
## Object-identity model for the `Simulator` dataclass defaults (claim C10)

Python evaluates a dataclass field default once, at class-creation time;
`field(default_factory=...)` instead calls the factory per instance.  In
`drivers/simulator.py` lines 20-30, `entities`, `tasks`, `predicates` and
`queue_future` use `default_factory` (the comment on `new_future_queue`
says a fresh queue per instance is "needed for Monte Carlo"), but
`failures = pd.DataFrame(...)` and `future = FutureEventList()` are plain
defaults: every default-constructed `Simulator` holds a reference to the
same single DataFrame object and the same single `FutureEventList` object.
The heap is modelled explicitly: objects live in an `ObjStore` and a
simulator instance holds references into it. -/
structure ObjStore where
  futureObjs : List (Nat × List ScheduledEvent)
  failObjs : List (Nat × List (ℚ × String × String))
  nextRef : Nat
deriving DecidableEq

/-- The store right after the class body is evaluated: one
`FutureEventList` object (ref 0) and one empty failures DataFrame (ref 1),
created once. -/
def classStore : ObjStore := { futureObjs := [(0, [])], failObjs := [(1, [])], nextRef := 2 }

/-- A `Simulator` instance as Python sees it: attribute slots holding
references.  Only the two class-level-default fields are relevant here; the
`default_factory` fields get fresh objects per instance and are omitted. -/
structure SimulatorObj where
  futureRef : Nat
  failuresRef : Nat
deriving DecidableEq

/-- `Simulator()` with all fields defaulted: both class-default attributes
refer to the objects created at class-creation time. -/
def mkSimulatorDefault (st : ObjStore) : SimulatorObj × ObjStore :=
  ({ futureRef := 0, failuresRef := 1 }, st)

def storeUpdate {α : Type} (l : List (Nat × α)) (r : Nat) (f : α → α) : List (Nat × α) :=
  l.map (fun p => if p.1 = r then (p.1, f p.2) else p)

/-- `Simulator.schedule` under object semantics:
`heappush(self.future.events, event)` mutates, in place, the
`FutureEventList` object that `self.future` references. -/
def schedule_obj (st : ObjStore) (s : SimulatorObj) (e : ScheduledEvent) : ObjStore :=
  { st with futureObjs := storeUpdate st.futureObjs s.futureRef (fun l => l ++ [e]) }

/-- `Simulator.log_failure` under object semantics:
`self.failures = pd.concat([...])` builds a new DataFrame and rebinds the
instance attribute to it; the object previously referenced is not
mutated. -/
def log_failure_obj (st : ObjStore) (s : SimulatorObj) (row : ℚ × String × String) :
    SimulatorObj × ObjStore :=
  let old := (st.failObjs.lookup s.failuresRef).getD []
  ({ s with failuresRef := st.nextRef },
   { st with failObjs := st.failObjs ++ [(st.nextRef, old ++ [row])], nextRef := st.nextRef + 1 })

/-- The event list this instance's `future` attribute refers to. -/
def observedFuture (st : ObjStore) (s : SimulatorObj) : List ScheduledEvent :=
  (st.futureObjs.lookup s.futureRef).getD []

/-- The failure rows this instance's `failures` attribute refers to. -/
def observedFailures (st : ObjStore) (s : SimulatorObj) : List (ℚ × String × String) :=
  (st.failObjs.lookup s.failuresRef).getD []

def sim1 : SimulatorObj := (mkSimulatorDefault classStore).1
def store1 : ObjStore := (mkSimulatorDefault classStore).2
def sim2 : SimulatorObj := (mkSimulatorDefault store1).1
def store2 : ObjStore := (mkSimulatorDefault store1).2
/-- The store after `sim1.schedule(seGO)`. -/
def store3 : ObjStore := schedule_obj store2 sim1 seGO

/-- The simulator state used to exercise the driver's failure path: one
vehicle whose first activity fails with certainty, its INIT event in the
Future Event List and its activity task waiting on it. -/
def stC7 : Simulator :=
  { entities := [("V1", vehA1)],
    future := { events := [({ name := "INIT", event := evINIT, time := some 0,
                              predicate := none, uid := 0 }, 0)], counter := 1 },
    tasks := [{ vehName := "V1", startUid := 0, status := .waiting }],
    nextUid := 1 }

/-- Projection of the scheduled-event payload of a result event. -/
def schedOf (r : ResultEvent) : ScheduledEvent :=
  match r with
  | .scheduledEvent se => se
  | _ => { name := "", event := { name := "", kind := .plain } }

/-- The successor event produced by waking the predicate-gated activity of
`vehP` on its INIT event. -/
def seP : ScheduledEvent :=
  schedOf (okOf (activity_handler seINIT 0 vehP (1 / 2) 3)).nextEvent

/-- The Future Event List entry left by the first driver step of the
`vehChain` run: the follow-on event of the first activity. -/
def xChain : ScheduledEvent × Nat :=
  ({ name := "MID", event := evMID, time := some 5, predicate := none, uid := 1 }, 1)

/-! ## The Future Event List pops in stable time order (claim C5) -/

theorem felLt_iff (a b : ScheduledEvent × Nat) : felLt a b = true ↔ felLtP a b := by
  simp [felLt, felLtP]

theorem felLtP_iff_key (a b : ScheduledEvent × Nat) : felLtP a b ↔ felKey a < felKey b := by
  simp [felLtP, felKey, Prod.Lex.lt_iff]

theorem felKey_eq_counter {a b : ScheduledEvent × Nat} (h : felKey a = felKey b) : a.2 = b.2 := by
  simpa [felKey, Prod.ext_iff] using congrArg (fun x => (ofLex x).2) h

theorem selMin_eq_none : ∀ {l : List (ScheduledEvent × Nat)}, selMin l = none → l = [] := by
  intro l h
  cases l with
  | nil => rfl
  | cons x xs =>
    exfalso
    cases hx : selMin xs with
    | none => simp [selMin, hx] at h
    | some p =>
      simp only [selMin, hx] at h
      split at h <;> simp at h

theorem selMin_spec :
    ∀ {l : List (ScheduledEvent × Nat)} {m rest},
      selMin l = some (m, rest) → l.Perm (m :: rest) ∧ ∀ y ∈ rest, ¬ felLtP y m := by
  intro l
  induction l with
  | nil => intro m rest h; simp [selMin] at h
  | cons x xs ih =>
    intro m rest h
    cases hx : selMin xs with
    | none =>
      have hnil : xs = [] := selMin_eq_none hx
      subst hnil
      simp only [selMin, Option.some.injEq, Prod.mk.injEq] at h
      obtain ⟨h1, h2⟩ := h
      subst h1
      subst h2
      exact ⟨List.Perm.refl _, by simp⟩
    | some p =>
      obtain ⟨m1, rest1⟩ := p
      obtain ⟨hperm, hmin⟩ := ih hx
      simp only [selMin, hx] at h
      by_cases hlt : felLt m1 x = true
      · rw [if_pos hlt] at h
        cases h
        constructor
        · exact (hperm.cons x).trans (List.Perm.swap m x rest1)
        · intro y hy
          rcases List.mem_cons.1 hy with rfl | hy1
          · have h1 := (felLt_iff ..).1 hlt
            rw [felLtP_iff_key] at h1 ⊢
            exact lt_asymm h1
          · exact hmin y hy1
      · rw [if_neg hlt] at h
        cases h
        refine ⟨List.Perm.refl _, ?_⟩
        intro y hy
        have hxm : felKey x ≤ felKey m1 := by
          have hn : ¬ felLtP m1 x := fun hc => hlt ((felLt_iff ..).2 hc)
          rw [felLtP_iff_key] at hn
          exact not_lt.1 hn
        rcases List.mem_cons.1 (hperm.mem_iff.1 hy) with rfl | hy1
        · rw [felLtP_iff_key]
          exact not_lt.2 hxm
        · have h1 : felKey m1 ≤ felKey y := by
            have hn := hmin y hy1
            rw [felLtP_iff_key] at hn
            exact not_lt.1 hn
          rw [felLtP_iff_key]
          exact not_lt.2 (hxm.trans h1)

theorem drainAux_perm :
    ∀ (n : Nat) (l : List (ScheduledEvent × Nat)), l.length ≤ n → (drainAux n l).Perm l := by
  intro n
  induction n with
  | zero =>
    intro l h
    have hnil : l = [] := List.length_eq_zero.1 (Nat.le_zero.1 h)
    subst hnil
    simp [drainAux]
  | succ n ih =>
    intro l h
    cases hx : selMin l with
    | none =>
      have hnil : l = [] := selMin_eq_none hx
      subst hnil
      simp [drainAux, selMin]
    | some p =>
      obtain ⟨m, rest⟩ := p
      obtain ⟨hperm, _⟩ := selMin_spec hx
      have hlen : l.length = rest.length + 1 := by simpa using hperm.length_eq
      have hr : rest.length ≤ n := by omega
      simp only [drainAux, hx]
      exact ((ih rest hr).cons m).trans hperm.symm

theorem drainAux_sorted :
    ∀ (n : Nat) (l : List (ScheduledEvent × Nat)), l.length ≤ n →
      l.Pairwise (fun a b => a.2 ≠ b.2) → (drainAux n l).Pairwise felLtP := by
  intro n
  induction n with
  | zero => intro l _ _; simp [drainAux]
  | succ n ih =>
    intro l h hnd
    cases hx : selMin l with
    | none => simp [drainAux, hx]
    | some p =>
      obtain ⟨m, rest⟩ := p
      obtain ⟨hperm, hmin⟩ := selMin_spec hx
      have hlen : l.length = rest.length + 1 := by simpa using hperm.length_eq
      have hr : rest.length ≤ n := by omega
      have hnd2 : (m :: rest).Pairwise (fun a b => a.2 ≠ b.2) :=
        (hperm.pairwise_iff (fun hab => Ne.symm hab)).1 hnd
      have hmne : ∀ y ∈ rest, m.2 ≠ y.2 := (List.pairwise_cons.1 hnd2).1
      have hndrest : rest.Pairwise (fun a b => a.2 ≠ b.2) := (List.pairwise_cons.1 hnd2).2
      simp only [drainAux, hx]
      refine List.pairwise_cons.2 ⟨?_, ih rest hr hndrest⟩
      intro y hy
      have hyr : y ∈ rest := (drainAux_perm n rest hr).mem_iff.1 hy
      have hle : felKey m ≤ felKey y := by
        have hn := hmin y hyr
        rw [felLtP_iff_key] at hn
        exact not_lt.1 hn
      have hne : felKey m ≠ felKey y := fun hc => hmne y hyr (felKey_eq_counter hc)
      rw [felLtP_iff_key]
      exact lt_of_le_of_ne hle hne

theorem enumFrom_fst_le {α : Type} :
    ∀ (es : List α) (n : Nat) (y : Nat × α), y ∈ List.enumFrom n es → n ≤ y.1 := by
  intro es
  induction es with
  | nil => intro n y hy; simp [List.enumFrom] at hy
  | cons e es ih =>
    intro n y hy
    rcases List.mem_cons.1 hy with rfl | hy1
    · exact Nat.le_refl n
    · exact Nat.le_of_succ_le (ih (n + 1) y hy1)

theorem enumFrom_pairwise_lt {α : Type} :
    ∀ (es : List α) (n : Nat), (List.enumFrom n es).Pairwise (fun a b => a.1 < b.1) := by
  intro es
  induction es with
  | nil => intro n; simp [List.enumFrom]
  | cons e es ih =>
    intro n
    refine List.pairwise_cons.2 ⟨?_, ih (n + 1)⟩
    intro y hy
    exact Nat.lt_of_succ_le (enumFrom_fst_le es (n + 1) y hy)

theorem pushList_events :
    ∀ (es : List ScheduledEvent) (f : FutureEventList),
      (pushList es f).events =
        f.events ++ (List.enumFrom f.counter es).map (fun p => (p.2, p.1)) ∧
      (pushList es f).counter = f.counter + es.length := by
  intro es
  induction es with
  | nil => intro f; simp [pushList, List.enumFrom]
  | cons e es ih =>
    intro f
    obtain ⟨ihev, ihct⟩ := ih (f.push e)
    have hstep : pushList (e :: es) f = pushList es (f.push e) := rfl
    constructor
    · rw [hstep, ihev]
      simp [FutureEventList.push, List.enumFrom, List.append_assoc]
    · rw [hstep, ihct]
      simp only [FutureEventList.push, List.length_cons]
      omega

/-- C5: the Future Event List is drained in non-decreasing time order with a
stable tie-break.  For every sequence of pushes starting from the empty
list: the stored entries record exactly the pushed events tagged with their
push positions, draining by repeated minimum selection (`popMin`'s order)
returns each pushed event exactly once, and popped entries are pairwise
strictly ordered by `felLtP` — earlier `time` first, and among entries with
equal `time`, smaller insertion index (earlier push) first. -/
theorem c5_fel_drain_sorted_stable (es : List ScheduledEvent) :
    (pushList es { events := [], counter := 0 }).events =
        (List.enumFrom 0 es).map (fun p => (p.2, p.1)) ∧
    (drain (pushList es { events := [], counter := 0 }).events).Perm
        ((List.enumFrom 0 es).map (fun p => (p.2, p.1))) ∧
    (drain (pushList es { events := [], counter := 0 }).events).Pairwise felLtP := by
  have hev := (pushList_events es { events := [], counter := 0 }).1
  simp only [List.nil_append] at hev
  have hnd : ((List.enumFrom 0 es).map (fun p => (p.2, p.1))).Pairwise
      (fun a b : ScheduledEvent × Nat => a.2 ≠ b.2) := by
    refine List.Pairwise.map _ ?_ (enumFrom_pairwise_lt es 0)
    intro a b hab
    exact Nat.ne_of_lt hab
  refine ⟨hev, ?_, ?_⟩
  · rw [hev, drain]
    exact drainAux_perm _ _ (Nat.le_refl _)
  · rw [hev, drain]
    exact drainAux_sorted _ _ (Nat.le_refl _) hnd

/-! ## What one activity-handler wake does (used by C2, C6, C7, C9) -/

theorem activity_handler_spec
    {start : ScheduledEvent} {clk : ℚ} {veh : Vehicle} {u : ℚ} {uid : Nat} {out : HandlerOut}
    (hok : activity_handler start clk veh u uid = .ok out) :
    ∃ a, veh.conops.after start.name = .ok a ∧
      out.vehicle.conops = veh.conops ∧
      out.vehicle.propload = veh.propload - 1 ∧
      out.vehicle.activity = some a ∧
      (¬ u > 1 - a.p_fail → out.logs = [] ∧
        (out.nextEvent.isFailure = true → a.end_.kind = EventKind.failureTerm)) := by
  cases ha : veh.conops.after start.name with
  | error e =>
    simp only [activity_handler, ha, bind, Except.bind] at hok
    simp at hok
  | ok a =>
    refine ⟨a, rfl, ?_⟩
    simp only [activity_handler, ha, bind, Except.bind, decide_eq_true_eq] at hok
    by_cases hu : u > 1 - a.p_fail
    · simp only [hu, if_true] at hok
      cases hk : a.failure.kind with
      | failureTerm =>
        rw [hk] at hok
        cases hok
        simp [Vehicle.update_trace, Vehicle.handle_failure]
        exact hu
      | completorTerm =>
        rw [hk] at hok
        cases hd : a.duration with
        | error e => simp [hd] at hok
        | ok d =>
          simp only [hd, bind, Except.bind] at hok
          cases hok
          simp [Vehicle.update_trace, Vehicle.handle_failure]
          exact hu
      | plain =>
        rw [hk] at hok
        cases hb : veh.conops.after a.failure.name with
        | error e => simp [hb] at hok
        | ok b =>
          simp only [hb, bind, Except.bind] at hok
          cases a with
          | plain ap =>
            cases hok
            simp [Vehicle.update_trace, Vehicle.handle_failure]
            exact hu
          | pred ap =>
            cases hok
            simp [Vehicle.update_trace, Vehicle.handle_failure]
            exact hu
    · simp only [hu, if_false] at hok
      cases hk : a.end_.kind with
      | failureTerm =>
        rw [hk] at hok
        cases hok
        simp [Vehicle.update_trace, Vehicle.handle_failure, hk]
      | completorTerm =>
        rw [hk] at hok
        cases hd : a.duration with
        | error e => simp [hd] at hok
        | ok d =>
          simp only [hd, bind, Except.bind] at hok
          cases hok
          simp [Vehicle.update_trace, ResultEvent.isFailure]
      | plain =>
        rw [hk] at hok
        cases hb : veh.conops.after a.end_.name with
        | error e => simp [hb] at hok
        | ok b =>
          simp only [hb, bind, Except.bind] at hok
          cases a with
          | plain ap =>
            cases hok
            simp [Vehicle.update_trace, ResultEvent.isFailure]
          | pred ap =>
            cases hok
            simp [Vehicle.update_trace, ResultEvent.isFailure]

theorem activity_handler_predicated
    {start : ScheduledEvent} {clk : ℚ} {veh : Vehicle} {u : ℚ} {uid : Nat} {out : HandlerOut}
    {pa : PredicatedActivity} {se : ScheduledEvent}
    (ha : veh.conops.after start.name = .ok (.pred pa))
    (hok : activity_handler start clk veh u uid = .ok out)
    (hse : out.nextEvent = .scheduledEvent se) :
    se.time = none ∧ se.predicate = some pa.predicate := by
  simp only [activity_handler, ha, bind, Except.bind, decide_eq_true_eq] at hok
  by_cases hu : u > 1 - (ActivityLike.pred pa).p_fail
  · simp only [hu, if_true] at hok
    cases hk : (ActivityLike.pred pa).failure.kind with
    | failureTerm =>
      rw [hk] at hok
      cases hok
      simp [ResultEvent.isFailure] at hse
    | completorTerm =>
      rw [hk] at hok
      simp [ActivityLike.duration] at hok
    | plain =>
      rw [hk] at hok
      cases hb : veh.conops.after (ActivityLike.pred pa).failure.name with
      | error e => simp [hb] at hok
      | ok b =>
        simp only [hb, bind, Except.bind] at hok
        cases hok
        simp only [ResultEvent.scheduledEvent.injEq] at hse
        subst hse
        exact ⟨rfl, rfl⟩
  · simp only [hu, if_false] at hok
    cases hk : (ActivityLike.pred pa).end_.kind with
    | failureTerm =>
      rw [hk] at hok
      cases hok
      simp [ResultEvent.isFailure] at hse
    | completorTerm =>
      rw [hk] at hok
      simp [ActivityLike.duration] at hok
    | plain =>
      rw [hk] at hok
      cases hb : veh.conops.after (ActivityLike.pred pa).end_.name with
      | error e => simp [hb] at hok
      | ok b =>
        simp only [hb, bind, Except.bind] at hok
        cases hok
        simp only [ResultEvent.scheduledEvent.injEq] at hse
        subst hse
        exact ⟨rfl, rfl⟩

/-! ## Frame and membership lemmas for the predicate re-scan -/

theorem pcheck_isSome {cf : CheckFn} {p : ScheduledEvent} {st : Simulator}
    (h : pcheck cf p st = true) : p.predicate.isSome = true := by
  cases hp : p.predicate with
  | none => rw [pcheck, hp] at h; exact absurd h (by simp)
  | some pid => simp

theorem scanAux_frame (cf : CheckFn) :
    ∀ (n : Nat) (st : Simulator) (i : Nat),
      (scanAux cf n st i).entities = st.entities ∧
      (scanAux cf n st i).failures = st.failures ∧
      (scanAux cf n st i).success = st.success ∧
      (scanAux cf n st i).clock = st.clock ∧
      (scanAux cf n st i).tasks = st.tasks ∧
      (scanAux cf n st i).rngIdx = st.rngIdx ∧
      (scanAux cf n st i).nextUid = st.nextUid := by
  intro n
  induction n with
  | zero => intro st i; simp [scanAux]
  | succ n ih =>
    intro st i
    by_cases h : i < st.predicates.length
    · simp only [scanAux]
      rw [dif_pos h]
      by_cases hc : pcheck cf st.predicates[i] st = true
      · rw [if_pos hc]
        simpa using ih _ (i + 1)
      · rw [if_neg hc]
        exact ih st (i + 1)
    · simp only [scanAux]
      rw [dif_neg h]
      simp

theorem scanAux_future_mem (cf : CheckFn) :
    ∀ (n : Nat) (st : Simulator) (i : Nat) (x : ScheduledEvent × Nat),
      x ∈ (scanAux cf n st i).future.events →
      x ∈ st.future.events ∨
        ((x.1).time = some st.clock ∧ (x.1).predicate.isSome = true) := by
  intro n
  induction n with
  | zero => intro st i x hx; rw [scanAux] at hx; exact .inl hx
  | succ n ih =>
    intro st i x hx
    by_cases h : i < st.predicates.length
    · rw [scanAux, dif_pos h] at hx
      by_cases hc : pcheck cf st.predicates[i] st = true
      · rw [if_pos hc] at hx
        rcases ih _ (i + 1) x hx with hmem | hnew
        · simp only [FutureEventList.push, List.mem_append, List.mem_singleton] at hmem
          rcases hmem with hold | rfl
          · exact .inl hold
          · refine .inr ⟨rfl, ?_⟩
            simpa using pcheck_isSome hc
        · exact .inr hnew
      · rw [if_neg hc] at hx
        exact ih st (i + 1) x hx
    · rw [scanAux, dif_neg h] at hx
      exact .inl hx

theorem scanAux_no_pid (cf : CheckFn) (pid : PredicateId)
    (hcf : ∀ q σ, cf pid q σ = false) :
    ∀ (n : Nat) (st : Simulator) (i : Nat),
      (∀ x ∈ st.future.events, (x.1).predicate ≠ some pid) →
      ∀ x ∈ (scanAux cf n st i).future.events, (x.1).predicate ≠ some pid := by
  intro n
  induction n with
  | zero => intro st i hpre x hx; rw [scanAux] at hx; exact hpre x hx
  | succ n ih =>
    intro st i hpre x hx
    by_cases h : i < st.predicates.length
    · rw [scanAux, dif_pos h] at hx
      by_cases hc : pcheck cf st.predicates[i] st = true
      · rw [if_pos hc] at hx
        refine ih _ (i + 1) ?_ x hx
        intro y hy
        simp only [FutureEventList.push, List.mem_append, List.mem_singleton] at hy
        rcases hy with hold | rfl
        · exact hpre y hold
        · intro hcontra
          have hp : (st.predicates[i]).predicate = some pid := hcontra
          rw [pcheck, hp] at hc
          simp [hcf] at hc
      · rw [if_neg hc] at hx
        exact ih st (i + 1) hpre x hx
    · rw [scanAux, dif_neg h] at hx
      exact hpre x hx

/-! ## Dict and lookup helpers -/

theorem dictSet_mem {α : Type} :
    ∀ (l : List (String × α)) (k : String) (v : α) (p : String × α),
      p ∈ dictSet l k v → p = (k, v) ∨ p ∈ l := by
  intro l
  induction l with
  | nil => intro k v p hp; simpa [dictSet] using hp
  | cons kv rest ih =>
    intro k v p hp
    obtain ⟨k0, v0⟩ := kv
    rw [dictSet] at hp
    by_cases hk : k0 = k
    · rw [if_pos hk] at hp
      rcases List.mem_cons.1 hp with rfl | hp1
      · exact .inl rfl
      · exact .inr (List.mem_cons.2 (.inr hp1))
    · rw [if_neg hk] at hp
      rcases List.mem_cons.1 hp with rfl | hp1
      · exact .inr (List.mem_cons.2 (.inl rfl))
      · rcases ih k v p hp1 with h1 | h1
        · exact .inl h1
        · exact .inr (List.mem_cons.2 (.inr h1))

theorem lookup_mem_pairs {α : Type} :
    ∀ (l : List (String × α)) (k : String) (v : α), l.lookup k = some v → (k, v) ∈ l := by
  intro l
  induction l with
  | nil => intro k v h; simp [List.lookup] at h
  | cons kv rest ih =>
    intro k v h
    obtain ⟨k0, v0⟩ := kv
    rw [List.lookup] at h
    rcases Bool.eq_false_or_eq_true (k == k0) with hk | hk
    · rw [hk] at h
      cases h
      have hkk : k = k0 := by simpa using hk
      subst hkk
      exact List.mem_cons.2 (.inl rfl)
    · rw [hk] at h
      exact List.mem_cons.2 (.inr (ih k v h))

theorem conopsSafe_spec {C : ConOps} (h : conopsSafe C = true) :
    ∀ {name : String} {a : ActivityLike}, C.sequence.lookup name = some a →
      a.p_fail = 0 ∧ a.end_.kind ≠ EventKind.failureTerm := by
  intro name a hl
  have hm : (name, a) ∈ C.sequence := lookup_mem_pairs _ _ _ hl
  have hall := (List.all_eq_true.1 h) _ hm
  simpa using hall

theorem ConOps.after_ok {c : ConOps} {n : String} {a : ActivityLike}
    (h : c.after n = .ok a) : c.sequence.lookup n = some a := by
  rw [ConOps.after] at h
  cases hl : c.sequence.lookup n with
  | none => rw [hl] at h; cases h
  | some b => rw [hl] at h; cases h; rfl

theorem popMin_subset {f : FutureEventList} {e : ScheduledEvent} {fel : FutureEventList}
    (h : f.popMin = some (e, fel)) : ∀ x ∈ fel.events, x ∈ f.events := by
  rw [FutureEventList.popMin] at h
  cases hs : selMin f.events with
  | none => rw [hs] at h; cases h
  | some p =>
    obtain ⟨⟨e0, c0⟩, rest⟩ := p
    rw [hs] at h
    cases h
    intro x hx
    have hperm := (selMin_spec hs).1
    exact hperm.mem_iff.2 (List.mem_cons.2 (.inr hx))

theorem cancel_tasks_not_waiting (l : List SimTask) :
    ∀ t ∈ cancel_tasks l, t.status ≠ TaskStatus.waiting := by
  intro t ht
  obtain ⟨t0, _, rfl⟩ := List.mem_map.1 ht
  cases hs : t0.status == TaskStatus.waiting with
  | true => simp
  | false =>
    simp only [Bool.false_eq_true, if_false]
    simpa using hs

theorem cancel_tasks_all (l : List SimTask) :
    (cancel_tasks l).all (fun t => t.status != TaskStatus.waiting) = true := by
  rw [List.all_eq_true]
  intro t ht
  have := cancel_tasks_not_waiting l t ht
  simpa using this

theorem driverClassify_next_spec {cf : CheckFn} {st2 : Simulator} {out : HandlerOut}
    {s : Simulator} (h : driverClassify cf st2 out = .next s) :
    out.nextEvent.isFailure = false ∧
    s.entities = st2.entities ∧ s.failures = st2.failures ∧
    s.success = st2.success ∧ s.clock = st2.clock ∧ s.tasks = st2.tasks := by
  cases hne : out.nextEvent with
  | failureEvent n ev t =>
    simp only [driverClassify, hne] at h
    cases h
  | completionEvent n ev t =>
    simp only [driverClassify, hne] at h
    cases h
    have hf := scanAux_frame cf st2.predicates.length st2 0
    rw [checkPredicates]
    exact ⟨by simp [ResultEvent.isFailure, hne], hf.1, hf.2.1, hf.2.2.1, hf.2.2.2.1,
      hf.2.2.2.2.1⟩
  | scheduledEvent se =>
    simp only [driverClassify, hne] at h
    by_cases hp : se.predicate.isSome = true
    · rw [if_pos hp] at h
      cases h
      have hf := scanAux_frame cf
        ({ st2 with predicates := st2.predicates ++ [se] } : Simulator).predicates.length
        { st2 with predicates := st2.predicates ++ [se] } 0
      rw [checkPredicates]
      exact ⟨by simp [ResultEvent.isFailure, hne], hf.1, hf.2.1, hf.2.2.1, hf.2.2.2.1,
        hf.2.2.2.2.1⟩
    · rw [if_neg hp] at h
      cases h
      have hf := scanAux_frame cf
        ({ st2 with future := st2.future.push se } : Simulator).predicates.length
        { st2 with future := st2.future.push se } 0
      rw [checkPredicates]
      exact ⟨by simp [ResultEvent.isFailure, hne], hf.1, hf.2.1, hf.2.2.1, hf.2.2.2.1,
        hf.2.2.2.2.1⟩

theorem driverClassify_stop_spec {cf : CheckFn} {st2 : Simulator} {out : HandlerOut}
    {s : Simulator} (h : driverClassify cf st2 out = .stop s) :
    out.nextEvent.isFailure = true ∧
    s.entities = st2.entities ∧ s.failures = st2.failures ∧
    s.success = st2.success ∧ s.tasks = cancel_tasks st2.tasks := by
  cases hne : out.nextEvent with
  | failureEvent n ev t =>
    simp only [driverClassify, hne] at h
    cases h
    exact ⟨by simp [ResultEvent.isFailure, hne], rfl, rfl, rfl, rfl⟩
  | completionEvent n ev t =>
    simp only [driverClassify, hne] at h
    cases h
  | scheduledEvent se =>
    simp only [driverClassify, hne] at h
    by_cases hp : se.predicate.isSome = true
    · rw [if_pos hp] at h; cases h
    · rw [if_neg hp] at h; cases h

theorem stepSim_next_spec {rng : Nat → ℚ} {cf : CheckFn} {st s : Simulator}
    (h : stepSim rng cf st = .next s) :
    ∃ e fel tk veh out,
      st.future.popMin = some (e, fel) ∧
      findWaiting st.tasks e.uid = some tk ∧
      st.entities.lookup tk.vehName = some veh ∧
      activity_handler e (e.time.getD 0) veh (rng st.rngIdx) st.nextUid = .ok out ∧
      driverClassify cf
        { st with
          future := fel,
          clock := e.time.getD 0,
          entities := dictSet st.entities tk.vehName out.vehicle,
          failures := st.failures ++ out.logs,
          tasks := markDone st.tasks e.uid ++ spawnTasks tk.vehName out.spawn,
          rngIdx := st.rngIdx + 1,
          nextUid := out.nextUid } out = .next s := by
  rw [stepSim] at h
  cases hpop : st.future.popMin with
  | none => simp only [hpop] at h; cases h
  | some p =>
    obtain ⟨e, fel⟩ := p
    simp only [hpop] at h
    cases htk : findWaiting st.tasks e.uid with
    | none => simp only [htk] at h; cases h
    | some tk =>
      simp only [htk] at h
      cases hveh : st.entities.lookup tk.vehName with
      | none => simp only [hveh] at h; cases h
      | some veh =>
        simp only [hveh] at h
        cases hout : activity_handler e (e.time.getD 0) veh (rng st.rngIdx) st.nextUid with
        | error pe => simp only [hout] at h; cases h
        | ok out =>
          simp only [hout] at h
          exact ⟨e, fel, tk, veh, out, rfl, htk, hveh, hout, h⟩

theorem stepSim_stop_spec {rng : Nat → ℚ} {cf : CheckFn} {st s : Simulator}
    (h : stepSim rng cf st = .stop s) :
    (st.future.popMin = none ∧ s = { st with success := true }) ∨
    ∃ e fel tk veh out,
      st.future.popMin = some (e, fel) ∧
      findWaiting st.tasks e.uid = some tk ∧
      st.entities.lookup tk.vehName = some veh ∧
      activity_handler e (e.time.getD 0) veh (rng st.rngIdx) st.nextUid = .ok out ∧
      driverClassify cf
        { st with
          future := fel,
          clock := e.time.getD 0,
          entities := dictSet st.entities tk.vehName out.vehicle,
          failures := st.failures ++ out.logs,
          tasks := markDone st.tasks e.uid ++ spawnTasks tk.vehName out.spawn,
          rngIdx := st.rngIdx + 1,
          nextUid := out.nextUid } out = .stop s := by
  rw [stepSim] at h
  cases hpop : st.future.popMin with
  | none =>
    simp only [hpop] at h
    cases h
    exact .inl ⟨rfl, rfl⟩
  | some p =>
    obtain ⟨e, fel⟩ := p
    simp only [hpop] at h
    cases htk : findWaiting st.tasks e.uid with
    | none => simp only [htk] at h; cases h
    | some tk =>
      simp only [htk] at h
      cases hveh : st.entities.lookup tk.vehName with
      | none => simp only [hveh] at h; cases h
      | some veh =>
        simp only [hveh] at h
        cases hout : activity_handler e (e.time.getD 0) veh (rng st.rngIdx) st.nextUid with
        | error pe => simp only [hout] at h; cases h
        | ok out =>
          simp only [hout] at h
          exact .inr ⟨e, fel, tk, veh, out, rfl, htk, hveh, hout, h⟩

/-! ## Run-level invariants -/

theorem handler_no_failure {C : ConOps} {e : ScheduledEvent} {clk : ℚ} {veh : Vehicle}
    {u : ℚ} {uid : Nat} {out : HandlerOut}
    (hsafe : conopsSafe C = true) (hu : u < 1) (hvC : veh.conops = C)
    (hok : activity_handler e clk veh u uid = .ok out) :
    out.vehicle.conops = C ∧ out.logs = [] ∧ out.nextEvent.isFailure = false := by
  obtain ⟨a, ha, hcon, _, _, hcond⟩ := activity_handler_spec hok
  have hlook : C.sequence.lookup e.name = some a := by
    rw [hvC] at ha
    exact ConOps.after_ok ha
  obtain ⟨hp0, hkind⟩ := conopsSafe_spec hsafe hlook
  have hnf : ¬ u > 1 - a.p_fail := by
    rw [hp0]
    intro hcnt
    norm_num at hcnt
    linarith
  obtain ⟨hlogs, himp⟩ := hcond hnf
  refine ⟨hcon.trans hvC, hlogs, ?_⟩
  cases hif : out.nextEvent.isFailure with
  | false => rfl
  | true => exact absurd (himp hif) hkind

theorem step_next_inv_c6 {C : ConOps} {rng : Nat → ℚ} {cf : CheckFn} {st s : Simulator}
    (hsafe : conopsSafe C = true) (hrng : ∀ n, rng n < 1)
    (hC : EntitiesConops C st) (h : stepSim rng cf st = .next s) :
    EntitiesConops C s ∧ s.failures = st.failures ∧ s.success = st.success := by
  obtain ⟨e, fel, tk, veh, out, hpop, htk, hveh, hout, hcl⟩ := stepSim_next_spec h
  obtain ⟨_, hent, hfails, hsucc, _, _⟩ := driverClassify_next_spec hcl
  have hvC : veh.conops = C := hC _ (lookup_mem_pairs _ _ _ hveh)
  obtain ⟨hconC, hlogs, _⟩ := handler_no_failure hsafe (hrng st.rngIdx) hvC hout
  refine ⟨?_, ?_, hsucc⟩
  · intro p hp
    rw [hent] at hp
    rcases dictSet_mem _ _ _ _ hp with rfl | hold
    · exact hconC
    · exact hC _ hold
  · rw [hfails, hlogs]
    simp

theorem step_stop_inv_c6 {C : ConOps} {rng : Nat → ℚ} {cf : CheckFn} {st s : Simulator}
    (hsafe : conopsSafe C = true) (hrng : ∀ n, rng n < 1)
    (hC : EntitiesConops C st) (h : stepSim rng cf st = .stop s) :
    s.failures = st.failures ∧ s.success = true := by
  rcases stepSim_stop_spec h with ⟨_, rfl⟩ | ⟨e, fel, tk, veh, out, hpop, htk, hveh, hout, hcl⟩
  · exact ⟨rfl, rfl⟩
  · exfalso
    obtain ⟨hisf, _, _, _, _⟩ := driverClassify_stop_spec hcl
    have hvC : veh.conops = C := hC _ (lookup_mem_pairs _ _ _ hveh)
    obtain ⟨_, _, hnf⟩ := handler_no_failure hsafe (hrng st.rngIdx) hvC hout
    rw [hisf] at hnf
    exact Bool.noConfusion hnf

theorem process_inv_c6 {C : ConOps} {rng : Nat → ℚ} {cf : CheckFn}
    (hsafe : conopsSafe C = true) (hrng : ∀ n, rng n < 1) :
    ∀ (fuel : Nat) (st st' : Simulator), process_events rng cf fuel st = .ok st' →
      EntitiesConops C st → st'.failures = st.failures ∧ st'.success = true := by
  intro fuel
  induction fuel with
  | zero => intro st st' h hC; rw [process_events] at h; cases h
  | succ n ih =>
    intro st st' h hC
    rw [process_events] at h
    cases hs : stepSim rng cf st with
    | stop s =>
      simp only [hs] at h
      cases h
      exact step_stop_inv_c6 hsafe hrng hC hs
    | next s =>
      simp only [hs] at h
      obtain ⟨hCs, hfs, _⟩ := step_next_inv_c6 hsafe hrng hC hs
      obtain ⟨h1, h2⟩ := ih s st' h hCs
      exact ⟨h1.trans hfs, h2⟩
    | err e => simp only [hs] at h; cases h

theorem step_entities_inv {C : ConOps} {rng : Nat → ℚ} {cf : CheckFn} {st s : Simulator}
    (hC : EntitiesConops C st)
    (hor : stepSim rng cf st = .next s ∨ stepSim rng cf st = .stop s) :
    EntitiesConops C s := by
  rcases hor with h | h
  · obtain ⟨e, fel, tk, veh, out, _, _, hveh, hout, hcl⟩ := stepSim_next_spec h
    obtain ⟨_, hent, _, _, _, _⟩ := driverClassify_next_spec hcl
    obtain ⟨a, ha, hcon, _, _, _⟩ := activity_handler_spec hout
    intro p hp
    rw [hent] at hp
    rcases dictSet_mem _ _ _ _ hp with rfl | hold
    · exact hcon.trans (hC _ (lookup_mem_pairs _ _ _ hveh))
    · exact hC _ hold
  · rcases stepSim_stop_spec h with ⟨_, rfl⟩ | ⟨e, fel, tk, veh, out, _, _, hveh, hout, hcl⟩
    · exact hC
    · obtain ⟨_, hent, _, _, _⟩ := driverClassify_stop_spec hcl
      obtain ⟨a, ha, hcon, _, _, _⟩ := activity_handler_spec hout
      intro p hp
      rw [hent] at hp
      rcases dictSet_mem _ _ _ _ hp with rfl | hold
      · exact hcon.trans (hC _ (lookup_mem_pairs _ _ _ hveh))
      · exact hC _ hold

theorem process_entities_inv {C : ConOps} {rng : Nat → ℚ} {cf : CheckFn} :
    ∀ (fuel : Nat) (st st' : Simulator), process_events rng cf fuel st = .ok st' →
      EntitiesConops C st → EntitiesConops C st' := by
  intro fuel
  induction fuel with
  | zero => intro st st' h hC; rw [process_events] at h; cases h
  | succ n ih =>
    intro st st' h hC
    rw [process_events] at h
    cases hs : stepSim rng cf st with
    | stop s =>
      simp only [hs] at h
      cases h
      exact step_entities_inv hC (.inr hs)
    | next s =>
      simp only [hs] at h
      exact ih s st' h (step_entities_inv hC (.inl hs))
    | err e => simp only [hs] at h; cases h

theorem add_vehicle_fields {st : Simulator} {v : Vehicle} {t : ℚ} {st1 : Simulator}
    (h : add_vehicle st v t = .ok st1) :
    st1.entities = dictSet st.entities v.name v ∧
    st1.failures = st.failures ∧ st1.success = st.success := by
  rw [add_vehicle] at h
  cases hf : v.conops.first with
  | error e => simp only [hf, bind, Except.bind] at h; cases h
  | ok a =>
    simp only [hf, bind, Except.bind] at h
    cases h
    exact ⟨rfl, rfl, rfl⟩

theorem foldlM_add_inv {C : ConOps} :
    ∀ (initial : List (ℚ × Vehicle)) (st0 st1 : Simulator),
      initial.foldlM (fun st p => add_vehicle st p.2 p.1) st0 = .ok st1 →
      EntitiesConops C st0 →
      (∀ p ∈ initial, (p.2).conops = C) →
      EntitiesConops C st1 ∧ st1.failures = st0.failures ∧ st1.success = st0.success := by
  intro initial
  induction initial with
  | nil =>
    intro st0 st1 h hC hv
    simp only [List.foldlM, pure, Except.pure] at h
    cases h
    exact ⟨hC, rfl, rfl⟩
  | cons p rest ih =>
    intro st0 st1 h hC hv
    simp only [List.foldlM, bind, Except.bind] at h
    cases ha : add_vehicle st0 p.2 p.1 with
    | error e => rw [ha] at h; cases h
    | ok stA =>
      rw [ha] at h
      obtain ⟨hent, hfail, hsucc⟩ := add_vehicle_fields ha
      have hCA : EntitiesConops C stA := by
        intro q hq
        rw [hent] at hq
        rcases dictSet_mem _ _ _ _ hq with rfl | hold
        · exact hv p (List.mem_cons.2 (.inl rfl))
        · exact hC _ hold
      obtain ⟨h1, h2, h3⟩ := ih stA st1 h hCA (fun q hq => hv q (List.mem_cons.2 (.inr hq)))
      exact ⟨h1, h2.trans hfail, h3.trans hsucc⟩

theorem one_not_lt_half : ¬ ((1:ℚ) < 2⁻¹) := by norm_num

theorem half_pos_q : (0:ℚ) < 2⁻¹ := by norm_num

/-! ## Claim theorems -/

/-- C1: the claim states that every event in the pending-predicate list is
checked exactly once per post-step re-scan, and that removing an entry whose
predicate returned true does not cause any other pending entry to be
skipped.  The code (`process_events` lines 74-80) iterates the live list
while calling `remove`, so it violates this: with two pending events `pe1`
and `pe2` whose predicates are both constantly true, the scan checks and
schedules only `pe1`; `pe2` survives the scan unchecked and unscheduled
even though its predicate is true. -/
theorem c1_predicate_scan_skips_entry :
    pcheck cfTrue pe1 stScan = true ∧ pcheck cfTrue pe2 stScan = true ∧
    (checkPredicates cfTrue stScan).predicates = [pe2] ∧
    (checkPredicates cfTrue stScan).future.events = [({ pe1 with time := some 5 }, 0)] :=
  ⟨rfl, rfl, rfl, rfl⟩

/-- C2 counterexample: the claim says the handler decrements the vehicle's
resource counters by the activity's `resource_change` deltas.  For the
activity `actRC` with `resource_change = {propload: 2}` and a vehicle with
`propload = 10`, the handler leaves `propload = 9` (`vehicle.propload -= 1`,
line 167), not `10 - 2 = 8`: the `resource_change` mapping is never read. -/
theorem c2_resource_change_ignored :
    actRC.resource_change = [("propload", 2)] ∧
    (activity_handler seGO 0 vehRC (1 / 2) 1).map (fun o => o.vehicle.propload) = .ok 9 ∧
    vehRC.propload - 2 ≠ 9 := by
  refine ⟨rfl, ?_, ?_⟩
  · norm_num [activity_handler, seGO, vehRC, conopsRC, actRC, evGO, evDone, FailureDefault,
      ConOps.after, List.lookup, ActivityLike.p_fail, ActivityLike.failure, ActivityLike.end_,
      ActivityLike.name, ActivityLike.start, ActivityLike.duration,
      Vehicle.update_trace, Except.map, bind, Except.bind]
  · norm_num [vehRC]

/-- C2 (amended): when an activity task wakes, it sets the vehicle's
current-activity reference to the resolved activity and decrements the
`propload` counter by the fixed amount 1, regardless of the activity's
`resource_change` mapping (which the engine never consults). -/
theorem c2_vehicle_update_fixed_decrement
    (start : ScheduledEvent) (clk : ℚ) (veh : Vehicle) (u : ℚ) (uid : Nat) (out : HandlerOut)
    (hok : activity_handler start clk veh u uid = .ok out) :
    ∃ a, veh.conops.after start.name = .ok a ∧
      out.vehicle.activity = some a ∧
      out.vehicle.propload = veh.propload - 1 := by
  obtain ⟨a, ha, _, hprop, hact, _⟩ := activity_handler_spec hok
  exact ⟨a, ha, hact, hprop⟩

theorem c2_vehicle_update_fixed_decrement_witness :
    (okOf (activity_handler seGO 0 vehRC (1 / 2) 1)).vehicle.propload = vehRC.propload - 1 ∧
    (okOf (activity_handler seGO 0 vehRC (1 / 2) 1)).vehicle.activity =
      some (.plain actRC) := by
  have hok : activity_handler seGO 0 vehRC (1 / 2) 1 =
      .ok (okOf (activity_handler seGO 0 vehRC (1 / 2) 1)) := by
    norm_num [okOf, activity_handler, seGO, vehRC, conopsRC, actRC, evGO, evDone,
      FailureDefault, ConOps.after, List.lookup, ActivityLike.p_fail, ActivityLike.failure,
      ActivityLike.end_, ActivityLike.name, ActivityLike.start, ActivityLike.duration,
      Vehicle.update_trace, bind, Except.bind, Except.toOption]
  obtain ⟨a, ha, hact, hprop⟩ := c2_vehicle_update_fixed_decrement _ _ _ _ _ _ hok
  have hres : vehRC.conops.after seGO.name = .ok (.plain actRC) := rfl
  cases hres.symm.trans ha
  exact ⟨hprop, hact⟩

/-- C3 counterexample: the claim quantifies over every uniform draw
`u ∈ [0,1)`, but `random.random()` can return 0.0 and the trial is
`u > 1 - p_fail`: with `p_fail = 1` and `u = 0` the trial `0 > 0` is false,
the first activity succeeds, and the run completes with `success = true`
and an empty failure log instead of failing. -/
theorem c3_zero_draw_defeats_certain_failure :
    actA1.p_fail = 1 ∧ (0:ℚ) ≤ 0 ∧ (0:ℚ) < 1 ∧ rngZero 0 = 0 ∧
    (runSim rngZero cfTrue [(0, vehA1)] 3).map (fun s => (s.success, s.failures)) =
      .ok (true, []) := by
  refine ⟨rfl, le_refl 0, by norm_num, rfl, ?_⟩
  norm_num [runSim, initSim, add_vehicle, process_events, stepSim, driverClassify,
    activity_handler, ConOps.first, ConOps.after, List.lookup, rngZero, cfTrue, vehA1,
    conopsA1, actA1, evINIT, evDone, evGO, FailureDefault, ActivityLike.p_fail,
    ActivityLike.failure, ActivityLike.end_, ActivityLike.name, ActivityLike.start,
    ActivityLike.duration, Vehicle.update_trace, Vehicle.handle_failure,
    FutureEventList.push, FutureEventList.popMin, selMin, felLt, timeKey, findWaiting,
    markDone, cancel_tasks, spawnTasks, checkPredicates, scanAux, pcheck, dictSet,
    Except.map, bind, Except.bind, pure, Except.pure, List.foldlM]

/-- C3 (amended): if the first activity of a single-vehicle run has
`p_fail = 1`, its failure end event is the Failure terminal (the default),
and the first uniform draw is positive (`u ∈ (0,1)` — the draw `u = 0`
defeats the trial, see the counterexample), then the run terminates with
`success = false` and the failure log holds exactly one record, at the
vehicle's start time. -/
theorem c3_pfail_one_positive_draw_fails
    (v : Vehicle) (t : ℚ) (rng : Nat → ℚ) (cf : CheckFn) (n : Nat) (a : ActivityLike)
    (hINIT : v.conops.sequence.lookup "INIT" = some a)
    (hstart : a.start.name = "INIT")
    (hpfail : a.p_fail = 1)
    (hterm : a.failure.kind = EventKind.failureTerm)
    (hu : 0 < rng 0) :
    (runSim rng cf [(t, v)] (n + 1)).map (fun s => (s.success, s.failures)) =
      .ok (false, [(t, v.name, a.name)]) := by
  have hfirst : v.conops.first = .ok a := by rw [ConOps.first, hINIT]
  rw [runSim]
  simp only [List.foldlM, add_vehicle, hfirst, bind, Except.bind, pure, Except.pure, initSim]
  have hd : decide (rng 0 > 1 - a.p_fail) = true := by
    refine decide_eq_true ?_
    rw [hpfail]
    norm_num
    exact hu
  rw [process_events]
  simp only [stepSim, FutureEventList.popMin, FutureEventList.push, selMin, List.nil_append,
    findWaiting, List.find?, beq_self_eq_true, Bool.and_self, dictSet, List.lookup,
    Option.getD, activity_handler, ConOps.after, hstart, hINIT, bind, Except.bind, hd,
    if_true, hterm, driverClassify]
  rfl

theorem c3_pfail_one_positive_draw_fails_witness :
    (runSim rngHalf cfTrue [(0, vehA1)] 3).map (fun s => (s.success, s.failures)) =
      .ok (false, [(0, "V1", "A")]) := by
  have h := c3_pfail_one_positive_draw_fails vehA1 0 rngHalf cfTrue 2 (.plain actA1)
    rfl rfl rfl rfl (by norm_num [rngHalf])
  simpa [vehA1, actA1, ActivityLike.name] using h

/-- C4 counterexample: for an event name absent from the ConOps sequence,
`ConOps.after` raises Python's `KeyError` (a plain dict lookup error), not a
`ConfigurationError` — no such exception class exists anywhere in the
code. -/
theorem c4_after_missing_key_not_config_error :
    conopsA1.sequence.lookup "NOPE" = none ∧
    conopsA1.after "NOPE" = .error (.keyError "NOPE") ∧
    PyErr.isConfigurationError (.keyError "NOPE") = false :=
  ⟨rfl, rfl, rfl⟩

/-- C4 (amended): for every event name that is not a key of the ConOps
sequence mapping, `ConOps.after` fails by raising a `KeyError` carrying that
name (which propagates uncaught and aborts the run) — not a
`ConfigurationError`, which does not exist in the code, and not a silent
stall. -/
theorem c4_after_missing_key_keyerror (c : ConOps) (name : String)
    (h : c.sequence.lookup name = none) :
    c.after name = .error (.keyError name) ∧
    PyErr.isConfigurationError (.keyError name) = false := by
  constructor
  · rw [ConOps.after, h]
  · rfl

theorem c4_after_missing_key_keyerror_witness :
    conopsA1.after "NOPE" = .error (.keyError "NOPE") ∧
    PyErr.isConfigurationError (.keyError "NOPE") = false :=
  c4_after_missing_key_keyerror conopsA1 "NOPE" rfl

/-- C6 counterexample: the claim promises `success = true` for every ConOps
whose activities all have `p_fail = 0`, but an activity whose `end` event is
a Failure-terminal instance makes the handler emit a `FailureEvent` even
though the trial succeeded: the run of `conopsB` (single activity,
`p_fail = 0`, end event of the Failure class) terminates with
`success = false` (and, having logged nothing, an empty failure log). -/
theorem c6_failure_terminal_end_defeats_success :
    conopsB.sequence.all (fun p => (p.2).p_fail == 0) = true ∧
    (runSim rngHalf cfTrue [(0, vehB)] 3).map (fun s => (s.success, s.failures)) =
      .ok (false, []) := by
  constructor
  · norm_num [conopsB, actB, ActivityLike.p_fail, List.all]
  · norm_num [runSim, initSim, add_vehicle, process_events, stepSim, driverClassify,
      activity_handler, ConOps.first, ConOps.after, List.lookup, rngHalf, cfTrue, vehB,
      conopsB, actB, evINIT, evDone, evGO, FailureDefault, ActivityLike.p_fail,
      ActivityLike.failure, ActivityLike.end_, ActivityLike.name, ActivityLike.start,
      ActivityLike.duration, Vehicle.update_trace, Vehicle.handle_failure,
      FutureEventList.push, FutureEventList.popMin, selMin, felLt, timeKey, findWaiting,
      markDone, cancel_tasks, spawnTasks, checkPredicates, scanAux, pcheck, dictSet,
      Except.map, bind, Except.bind, pure, Except.pure, List.foldlM]

/-- C6 (amended): for every ConOps in which every activity has `p_fail = 0`
and no activity's `end` event is the Failure terminal (see the
counterexample for why the extra condition is needed), and for every random
source drawing in `[0,1)`, any run over vehicles scripted by that ConOps
that terminates does so with `success = true` and an empty failure log: no
draw `u < 1` satisfies the failure condition `u > 1 - p_fail` when
`p_fail = 0`. -/
theorem c6_all_pfail_zero_run_succeeds
    (C : ConOps) (initial : List (ℚ × Vehicle)) (rng : Nat → ℚ) (cf : CheckFn)
    (fuel : Nat) (st : Simulator)
    (hsafe : conopsSafe C = true)
    (hrng : ∀ n, rng n < 1)
    (hveh : ∀ p ∈ initial, (p.2).conops = C)
    (hrun : runSim rng cf initial fuel = .ok st) :
    st.success = true ∧ st.failures = [] := by
  rw [runSim] at hrun
  cases hf : initial.foldlM (fun st p => add_vehicle st p.2 p.1) initSim with
  | error pe =>
    simp only [hf] at hrun
    cases hrun
  | ok st0 =>
    simp only [hf] at hrun
    have hC0 : EntitiesConops C initSim := by
      intro p hp
      simp [initSim] at hp
    obtain ⟨hC, hfail0, _⟩ := foldlM_add_inv initial initSim st0 hf hC0 hveh
    obtain ⟨h1, h2⟩ := process_inv_c6 hsafe hrng fuel st0 st hrun hC
    exact ⟨h2, by rw [h1, hfail0]; rfl⟩

theorem c6_all_pfail_zero_run_succeeds_witness :
    (runOf (runSim rngHalf cfTrue [(0, vehW)] 3)).success = true ∧
    (runOf (runSim rngHalf cfTrue [(0, vehW)] 3)).failures = [] := by
  have hrun : runSim rngHalf cfTrue [(0, vehW)] 3 =
      .ok (runOf (runSim rngHalf cfTrue [(0, vehW)] 3)) := by
    norm_num [runOf, Except.toOption, runSim, initSim, add_vehicle, process_events, stepSim,
      driverClassify, activity_handler, ConOps.first, ConOps.after, List.lookup, rngHalf,
      cfTrue, vehW, conopsW, actW, evINIT, evDone, FailureDefault, ActivityLike.p_fail,
      ActivityLike.failure, ActivityLike.end_, ActivityLike.name, ActivityLike.start,
      ActivityLike.duration, Vehicle.update_trace, Vehicle.handle_failure,
      FutureEventList.push, FutureEventList.popMin, selMin, felLt, timeKey, findWaiting,
      markDone, cancel_tasks, spawnTasks, checkPredicates, scanAux, pcheck, dictSet,
      Except.map, bind, Except.bind, pure, Except.pure, List.foldlM]
  refine c6_all_pfail_zero_run_succeeds conopsW [(0, vehW)] rngHalf cfTrue 3 _ ?_ ?_ ?_ hrun
  · norm_num [conopsSafe, conopsW, actW, evDone, ActivityLike.p_fail, ActivityLike.end_,
      List.all]
    decide
  · intro n
    norm_num [rngHalf]
  · intro p hp
    rcases List.mem_singleton.1 hp with rfl
    rfl

/-- C7: whenever the driver's one in-flight activity task hands back a
`FailureEvent`, the driver step returns from the loop at once (`.stop`),
every task that was still waiting is cancelled (none is left waiting), and
the `success` flag — false going in — is still false in the final state. -/
theorem c7_failure_event_cancels_and_stops
    (rng : Nat → ℚ) (cf : CheckFn) (st : Simulator) (e : ScheduledEvent)
    (fel : FutureEventList) (tk : SimTask) (veh : Vehicle)
    (hpop : st.future.popMin = some (e, fel))
    (htk : findWaiting st.tasks e.uid = some tk)
    (hveh : st.entities.lookup tk.vehName = some veh)
    (hfail : handlerFailed
      (activity_handler e (e.time.getD 0) veh (rng st.rngIdx) st.nextUid) = true)
    (hsucc : st.success = false) :
    (stepSim rng cf st).isStop = true ∧
    (stepSim rng cf st).state.success = false ∧
    ((stepSim rng cf st).state.tasks.all
      (fun tk2 => tk2.status != TaskStatus.waiting)) = true := by
  rw [stepSim]
  simp only [hpop, htk, hveh]
  cases hout : activity_handler e (e.time.getD 0) veh (rng st.rngIdx) st.nextUid with
  | error pe =>
    simp only [handlerFailed, hout] at hfail
    exact Bool.noConfusion hfail
  | ok out =>
    simp only [handlerFailed, hout] at hfail
    cases hne : out.nextEvent with
    | failureEvent nm ev tt =>
      simp only [driverClassify, hne, StepResult.isStop, StepResult.state]
      exact ⟨by simp, hsucc, cancel_tasks_all _⟩
    | completionEvent nm ev tt =>
      rw [hne] at hfail
      simp [ResultEvent.isFailure] at hfail
    | scheduledEvent se =>
      rw [hne] at hfail
      simp [ResultEvent.isFailure] at hfail

theorem c7_failure_event_cancels_and_stops_witness :
    (stepSim rngHalf cfTrue stC7).isStop = true ∧
    (stepSim rngHalf cfTrue stC7).state.success = false ∧
    ((stepSim rngHalf cfTrue stC7).state.tasks.all
      (fun tk2 => tk2.status != TaskStatus.waiting)) = true := by
  refine c7_failure_event_cancels_and_stops rngHalf cfTrue stC7
    { name := "INIT", event := evINIT, time := some 0, predicate := none, uid := 0 }
    { events := [], counter := 1 }
    { vehName := "V1", startUid := 0, status := .waiting }
    vehA1 rfl rfl rfl ?_ rfl
  norm_num [handlerFailed, activity_handler, stC7, vehA1, conopsA1, actA1, evINIT, evDone,
    FailureDefault, ConOps.after, List.lookup, ActivityLike.p_fail, ActivityLike.failure,
    ActivityLike.end_, ActivityLike.name, ActivityLike.start, ActivityLike.duration,
    Vehicle.update_trace, Vehicle.handle_failure, rngHalf, bind, Except.bind,
    ResultEvent.isFailure]

/-- C9 counterexample: a ConOps is not immutable — its `update` method
(`objects/activities.py` lines 54-56) mutates the event-name-to-activity
sequence in place: updating `conopsW` with a new entry yields a different
sequence. -/
theorem c9_update_mutates_sequence :
    (conopsW.update [("EXTRA", .plain actB)]).sequence ≠ conopsW.sequence := by
  simp [ConOps.update, dictUpdate, dictSet, conopsW]

/-- C9 (amended): the ConOps sequence is mutable through the `update`
operation (see the counterexample); apart from `update` — which the engine
never calls — no operation changes it: `first` and `after` only read it, and
a whole driver run leaves every vehicle's ConOps mapping unchanged. -/
theorem c9_run_preserves_conops
    (C : ConOps) (initial : List (ℚ × Vehicle)) (rng : Nat → ℚ) (cf : CheckFn)
    (fuel : Nat) (st : Simulator)
    (hveh : ∀ p ∈ initial, (p.2).conops = C)
    (hrun : runSim rng cf initial fuel = .ok st) :
    ∀ p ∈ st.entities, (p.2).conops = C := by
  rw [runSim] at hrun
  cases hf : initial.foldlM (fun st p => add_vehicle st p.2 p.1) initSim with
  | error pe =>
    simp only [hf] at hrun
    cases hrun
  | ok st0 =>
    simp only [hf] at hrun
    have hC0 : EntitiesConops C initSim := by
      intro p hp
      simp [initSim] at hp
    obtain ⟨hC, _, _⟩ := foldlM_add_inv initial initSim st0 hf hC0 hveh
    exact process_entities_inv fuel st0 st hrun hC

theorem c9_run_preserves_conops_witness :
    ((runOf (runSim rngHalf cfTrue [(0, vehChain)] 5)).entities.all
      (fun p => (p.2).conops == conopsChain)) = true := by
  have hrun : runSim rngHalf cfTrue [(0, vehChain)] 5 =
      .ok (runOf (runSim rngHalf cfTrue [(0, vehChain)] 5)) := by
    simp +decide [one_not_lt_half, runOf, Except.toOption, runSim, initSim, add_vehicle,
      process_events, stepSim, driverClassify, activity_handler, ConOps.first, ConOps.after,
      List.lookup, rngHalf, cfTrue, vehChain, conopsChain, actC1, actC2, evINIT, evMID,
      evDone, FailureDefault, ActivityLike.p_fail, ActivityLike.failure, ActivityLike.end_,
      ActivityLike.name, ActivityLike.start, ActivityLike.duration, Vehicle.update_trace,
      Vehicle.handle_failure, FutureEventList.push, FutureEventList.popMin, selMin, felLt,
      timeKey, findWaiting, markDone, cancel_tasks, spawnTasks, checkPredicates, scanAux,
      pcheck, dictSet, Except.map, bind, Except.bind, pure, Except.pure, List.foldlM]
  have h := c9_run_preserves_conops conopsChain [(0, vehChain)] rngHalf cfTrue 5 _
    (by intro p hp; rcases List.mem_singleton.1 hp with rfl; rfl) hrun
  rw [List.all_eq_true]
  intro p hp
  simpa using h p hp

/-- C10: the claim states that two default-constructed `Simulator`
instances have independent `future` and `failures` state.  The code gives
`failures` and `future` plain class-level defaults (dataclass defaults are
evaluated once, unlike the `default_factory` fields around them), so both
instances hold references to the same two objects; since
`Simulator.schedule` mutates the shared `FutureEventList` in place,
scheduling `seGO` through the first instance makes it appear in the second
instance's `future`. -/
theorem c10_shared_default_future_leaks :
    sim1.futureRef = sim2.futureRef ∧
    sim1.failuresRef = sim2.failuresRef ∧
    observedFuture store2 sim2 = [] ∧
    observedFuture store3 sim2 = [seGO] :=
  ⟨rfl, rfl, rfl, rfl⟩

/-- C8: deferred scheduling of predicate-gated successors.  (1) The
successor event an activity task builds for a predicate-gated current
activity carries the activity's predicate and no concrete time.  (2) Any
entry the post-step predicate re-scan adds to the Future Event List carries
a predicate and a time equal to the driver's current clock — never an
earlier time.  (3) If a predicate never evaluates true, then across any
driver step no event carrying it ever enters the Future Event List: the
driver queues predicate-carrying results on the pending list, and only the
re-scan (on a true check) can schedule them. -/
theorem c8_predicate_gated_deferred_scheduling :
    (∀ (start : ScheduledEvent) (clk : ℚ) (veh : Vehicle) (u : ℚ) (uid : Nat)
        (out : HandlerOut) (pa : PredicatedActivity) (se : ScheduledEvent),
        veh.conops.after start.name = .ok (.pred pa) →
        activity_handler start clk veh u uid = .ok out →
        out.nextEvent = .scheduledEvent se →
        se.time = none ∧ se.predicate = some pa.predicate) ∧
    (∀ (cf : CheckFn) (st : Simulator) (x : ScheduledEvent × Nat),
        x ∈ (checkPredicates cf st).future.events →
        x ∈ st.future.events ∨ ((x.1).time = some st.clock ∧ (x.1).predicate.isSome = true)) ∧
    (∀ (rng : Nat → ℚ) (cf : CheckFn) (st s : Simulator) (pid : PredicateId),
        (∀ q σ, cf pid q σ = false) →
        (∀ x ∈ st.future.events, (x.1).predicate ≠ some pid) →
        stepSim rng cf st = .next s →
        ∀ x ∈ s.future.events, (x.1).predicate ≠ some pid) := by
  refine ⟨fun start clk veh u uid out pa se ha hok hse =>
      activity_handler_predicated ha hok hse,
    fun cf st x hx => ?_,
    fun rng cf st s pid hcf hpre h x hx => ?_⟩
  · rw [checkPredicates] at hx
    exact scanAux_future_mem cf _ st 0 x hx
  · obtain ⟨e, fel, tk, veh, out, hpop, htk, hveh, hout, hcl⟩ := stepSim_next_spec h
    have hfel : ∀ y ∈ fel.events, (y.1).predicate ≠ some pid :=
      fun y hy => hpre y (popMin_subset hpop y hy)
    cases hne : out.nextEvent with
    | failureEvent nm ev tt =>
      simp only [driverClassify, hne] at hcl
      cases hcl
    | completionEvent nm ev tt =>
      simp only [driverClassify, hne] at hcl
      cases hcl
      rw [checkPredicates] at hx
      exact scanAux_no_pid cf pid hcf _ _ 0 (fun y hy => hfel y hy) x hx
    | scheduledEvent se =>
      simp only [driverClassify, hne] at hcl
      by_cases hp : se.predicate.isSome = true
      · rw [if_pos hp] at hcl
        cases hcl
        rw [checkPredicates] at hx
        exact scanAux_no_pid cf pid hcf _ _ 0 (fun y hy => hfel y hy) x hx
      · rw [if_neg hp] at hcl
        cases hcl
        rw [checkPredicates] at hx
        refine scanAux_no_pid cf pid hcf _ _ 0 ?_ x hx
        intro y hy
        simp only [FutureEventList.push, List.mem_append, List.mem_singleton] at hy
        rcases hy with hold | rfl
        · exact hfel y hold
        · intro hc
          have hc2 : se.predicate = some pid := hc
          rw [hc2] at hp
          simp at hp

theorem c8_predicate_gated_deferred_scheduling_witness :
    (seP.time = none ∧ seP.predicate = some 7) ∧
    ((({ pe1 with time := some 5 } : ScheduledEvent), 0) ∈ stScan.future.events ∨
      ((({ pe1 with time := some 5 } : ScheduledEvent), 0).1.time = some stScan.clock ∧
        (({ pe1 with time := some 5 } : ScheduledEvent), 0).1.predicate.isSome = true)) ∧
    xChain.1.predicate ≠ some 9 := by
  refine ⟨?_, ?_, ?_⟩
  · have hok : activity_handler seINIT 0 vehP (1 / 2) 3 =
        .ok (okOf (activity_handler seINIT 0 vehP (1 / 2) 3)) := by
      simp +decide [one_not_lt_half, okOf, Except.toOption, activity_handler, seINIT, vehP,
        conopsP, pactP, actN, evINIT, evGO, evDone, FailureDefault, ConOps.after,
        List.lookup, ActivityLike.p_fail, ActivityLike.failure, ActivityLike.end_,
        ActivityLike.name, ActivityLike.start, ActivityLike.duration, Vehicle.update_trace,
        bind, Except.bind]
    have hse : (okOf (activity_handler seINIT 0 vehP (1 / 2) 3)).nextEvent =
        .scheduledEvent seP := by
      simp +decide [one_not_lt_half, seP, schedOf, okOf, Except.toOption, activity_handler,
        seINIT, vehP, conopsP, pactP, actN, evINIT, evGO, evDone, FailureDefault,
        ConOps.after, List.lookup, ActivityLike.p_fail, ActivityLike.failure,
        ActivityLike.end_, ActivityLike.name, ActivityLike.start, ActivityLike.duration,
        Vehicle.update_trace, bind, Except.bind]
    have ha : vehP.conops.after seINIT.name = .ok (.pred pactP) := rfl
    have h := c8_predicate_gated_deferred_scheduling.1 seINIT 0 vehP (1 / 2) 3
      (okOf (activity_handler seINIT 0 vehP (1 / 2) 3)) pactP seP ha hok hse
    simpa [pactP] using h
  · refine c8_predicate_gated_deferred_scheduling.2.1 cfTrue stScan _ ?_
    have hev : (checkPredicates cfTrue stScan).future.events =
        [(({ pe1 with time := some 5 } : ScheduledEvent), 0)] := rfl
    rw [hev]
    exact List.mem_singleton.2 rfl
  · have hstep : stepSim rngHalf cfFalse stChain0 =
        .next ((stepSim rngHalf cfFalse stChain0).state) := by
      simp +decide [one_not_lt_half, StepResult.state, stepSim, driverClassify,
        activity_handler, ConOps.first, ConOps.after, List.lookup, rngHalf, cfFalse,
        stChain0, vehChain, conopsChain, actC1, actC2, evINIT, evMID, evDone,
        FailureDefault, ActivityLike.p_fail, ActivityLike.failure, ActivityLike.end_,
        ActivityLike.name, ActivityLike.start, ActivityLike.duration, Vehicle.update_trace,
        Vehicle.handle_failure, FutureEventList.push, FutureEventList.popMin, selMin, felLt,
        timeKey, findWaiting, markDone, cancel_tasks, spawnTasks, checkPredicates, scanAux,
        pcheck, dictSet, bind, Except.bind]
    have hmem : xChain ∈ ((stepSim rngHalf cfFalse stChain0).state).future.events := by
      simp +decide [one_not_lt_half, xChain, StepResult.state, stepSim, driverClassify,
        activity_handler, ConOps.first, ConOps.after, List.lookup, rngHalf, cfFalse,
        stChain0, vehChain, conopsChain, actC1, actC2, evINIT, evMID, evDone,
        FailureDefault, ActivityLike.p_fail, ActivityLike.failure, ActivityLike.end_,
        ActivityLike.name, ActivityLike.start, ActivityLike.duration, Vehicle.update_trace,
        Vehicle.handle_failure, FutureEventList.push, FutureEventList.popMin, selMin, felLt,
        timeKey, findWaiting, markDone, cancel_tasks, spawnTasks, checkPredicates, scanAux,
        pcheck, dictSet, bind, Except.bind]
    exact c8_predicate_gated_deferred_scheduling.2.2 rngHalf cfFalse stChain0 _ 9
      (fun q σ => rfl) (by decide) hstep xChain hmem
